import Mathlib

/-!
Shallow embedding of the subscene-dl sources (subscene/htmlparse.py,
subscene/cli.py, subscene/api.py) used to check the specification claims
C1-C10 against the code.

Text is modelled as `List Char`; Python floats as `ℚ`; fallible Python code
as `Except`/`Option`. External collaborators (the xextract CSS engine, the
Python codecs, the iso639 database) enter either as explicit function
parameters or as small models of their documented contracts; everything else
is translated directly from the repository sources.
-/

/-- Text as a list of characters (Python `str`). -/
abbrev Str := List Char

/-! ## Throttle detection (htmlparse.BaseParser)

`BaseParser.THROTTLE_PATTERN = re.compile(r"Too?.+?many.+?requests", re.IGNORECASE)`
and `_parse_errors` raises `TooManyRequestsError` when `THROTTLE_PATTERN.search`
succeeds.  The matcher below implements that regular expression over
`List Char`; lazy quantifiers do not change whether a match exists, so `.+?`
is modelled as "one or more non-newline characters". -/

/-- Case-insensitive literal matcher: consumes `pat` (given in lowercase) from
the front of `s`, comparing via `Char.toLower`, and returns the remaining
input on success. -/
def litCI : Str → Str → Option Str
  | [], s => some s
  | _ :: _, [] => none
  | p :: ps, c :: cs => if c.toLower = p then litCI ps cs else none

/-- Regex fragment `.+?` followed by a continuation: one or more non-newline
characters (Python `.` does not match a newline), then `k` must accept the
rest. -/
def dotPlusThen (k : Str → Bool) : Str → Bool
  | [] => false
  | c :: cs => if c = '\n' then false else k cs || dotPlusThen k cs

/-- Regex tail `requests`. -/
def throttleTailRequests (s : Str) : Bool :=
  (litCI ("requests".toList) s).isSome

/-- Regex tail `many.+?requests`. -/
def throttleTailMany (s : Str) : Bool :=
  match litCI ("many".toList) s with
  | some r => dotPlusThen throttleTailRequests r
  | none => false

/-- Regex tail `o?.+?many.+?requests` (everything after the mandatory `To`). -/
def throttleAfterTo (s : Str) : Bool :=
  dotPlusThen throttleTailMany s ||
    (match s with
     | c :: cs => if c.toLower = 'o' then dotPlusThen throttleTailMany cs else false
     | [] => false)

/-- Does `THROTTLE_PATTERN` match starting at the first character of `s`? -/
def throttleMatchAt (s : Str) : Bool :=
  match litCI ("to".toList) s with
  | some r => throttleAfterTo r
  | none => false

/-- Models `BaseParser.THROTTLE_PATTERN.search(html)`: does the throttle regex
match anywhere in the document? -/
def throttleSearch : Str → Bool
  | [] => false
  | c :: cs => throttleMatchAt (c :: cs) || throttleSearch cs

/-- Error outcomes of the extractor: `TooManyRequestsError` raised by
`BaseParser._parse_errors`, and xextract's `ParsingError`. -/
inductive PageError where
  | tooManyRequests
  | parsingError
  deriving DecidableEq

/-- Models `BaseParser._parse_errors`: raises `TooManyRequestsError` when the
page content matches the throttle pattern. -/
def baseParser_parseErrors (html : Str) : Except PageError Unit :=
  if throttleSearch html then .error .tooManyRequests else .ok ()

/-- Subtitle rows extracted from a title page: `{url, name, rating}` with the
rating token kept as scraped text. -/
structure SubRecord where
  url : Str
  name : Str
  rating : Str
  deriving DecidableEq

/-- Models `TitleSearchResultsParser.parse`: `self._parse_errors()` runs first;
the structural xextract section/movie extraction (which may itself raise
`ParsingError`) is abstracted as `structural`. -/
def titleSearchResultsParser_parse {α : Type} (structural : Str → Except PageError α)
    (html : Str) : Except PageError α :=
  match baseParser_parseErrors html with
  | .error e => .error e
  | .ok _ => structural html

/-- Models `TitlePageParser.parse`: `self._parse_errors()` runs first, then the
explicit empty marker check (`td.empty`), then the structural row extraction
(abstracted as `rows`; it may raise `ParsingError`, e.g. for an unrecognized
rating icon class). -/
def titlePageParser_parse (emptyMarker : Str → Bool)
    (rows : Str → Except PageError (List SubRecord)) (html : Str) :
    Except PageError (List SubRecord) :=
  match baseParser_parseErrors html with
  | .error e => .error e
  | .ok _ => if emptyMarker html then .ok [] else rows html

/-- Models the xextract `Url(quant="1")` element used by `SubtitlePageParser`:
the CSS selection must match exactly one element, otherwise the library's
quantity check raises `ParsingError`; on success the single resolved URL is
returned. -/
def urlQuantOne (matched : List Str) : Except PageError Str :=
  match matched with
  | [a] => .ok a
  | _ => .error .parsingError

/-- Models `SubtitlePageParser.parse`: `self._parse_errors()` runs first, then
`Url(quant="1", css=".download a").parse`, with the CSS anchor selection
abstracted as `anchors`. -/
def subtitlePageParser_parse (anchors : Str → List Str) (html : Str) :
    Except PageError Str :=
  match baseParser_parseErrors html with
  | .error e => .error e
  | .ok _ => urlQuantOne (anchors html)

/-! ## Lemmas about the throttle matcher -/

/-- Consuming a case-insensitive literal: if `b` lowercases to `pat` then
`litCI pat` consumes exactly `b`. -/
theorem litCI_append (pat : Str) : ∀ (b rest : Str),
    b.map Char.toLower = pat → litCI pat (b ++ rest) = some rest := by
  induction pat with
  | nil =>
    intro b rest h
    obtain rfl : b = [] := by simpa using h
    rfl
  | cons p ps ih =>
    intro b rest h
    cases b with
    | nil => simp at h
    | cons c cs =>
      rw [List.map_cons] at h
      injection h with h1 h2
      simpa [litCI, h1] using ih cs rest h2

/-- Unfolding equation for `dotPlusThen` on a cons cell. -/
theorem dotPlusThen_cons (k : Str → Bool) (c : Char) (cs : Str) :
    dotPlusThen k (c :: cs) = if c = '\n' then false else k cs || dotPlusThen k cs := rfl

/-- A match somewhere in the document makes the search succeed. -/
theorem throttleSearch_append (s : Str) (hs : throttleMatchAt s = true) :
    ∀ a : Str, throttleSearch (a ++ s) = true := by
  intro a
  induction a with
  | nil =>
    cases s with
    | nil => exact absurd hs (by decide)
    | cons c cs => simpa [throttleSearch] using Or.inl hs
  | cons x a' ih => simp [throttleSearch, ih]

/-- A character that lowercases to a space is not a newline. -/
theorem ne_newline_of_toLower_space (c : Char) (h : c.toLower = ' ') : c ≠ '\n' := by
  intro hc
  subst hc
  exact absurd h (by decide)

/-- A list that lowercases to a single character is a single character. -/
theorem map_toLower_singleton (b : Str) (c : Char) (h : b.map Char.toLower = [c]) :
    ∃ d, b = [d] ∧ d.toLower = c := by
  cases b with
  | nil => simp at h
  | cons d t =>
    rw [List.map_cons] at h
    injection h with h1 h2
    obtain rfl : t = [] := by simpa using h2
    exact ⟨d, rfl, h1⟩

/-- Whenever the document contains the case-insensitive phrase
"too many requests", the throttle regex search succeeds. -/
theorem throttleSearch_of_phrase (html : Str)
    (h : ("too many requests".toList) <:+: html.map Char.toLower) :
    throttleSearch html = true := by
  obtain ⟨pre, suf, hsplit⟩ := h
  have h1 : html.map Char.toLower = pre ++ ("too many requests".toList ++ suf) := by
    rw [← hsplit, List.append_assoc]
  obtain ⟨a, b, rfl, ha, hb⟩ := List.map_eq_append_iff.mp h1
  obtain ⟨b1, b2, rfl, hb1, hb2⟩ := List.map_eq_append_iff.mp hb
  have hphrase : ("too many requests".toList) =
      ("to".toList) ++ (("o".toList) ++ ((" ".toList) ++
        (("many".toList) ++ ((" ".toList) ++ ("requests".toList))))) := by decide
  rw [hphrase] at hb1
  obtain ⟨p1, r1, rfl, hp1, hr1⟩ := List.map_eq_append_iff.mp hb1
  obtain ⟨p2, r2, rfl, hp2, hr2⟩ := List.map_eq_append_iff.mp hr1
  obtain ⟨p3, r3, rfl, hp3, hr3⟩ := List.map_eq_append_iff.mp hr2
  obtain ⟨p4, r4, rfl, hp4, hr4⟩ := List.map_eq_append_iff.mp hr3
  obtain ⟨p5, p6, rfl, hp5, hp6⟩ := List.map_eq_append_iff.mp hr4
  -- the single characters making up `o`, ` `, ` `
  obtain ⟨c2, rfl, hc2⟩ := map_toLower_singleton p2 'o' (by simpa using hp2)
  obtain ⟨c3, rfl, hc3⟩ := map_toLower_singleton p3 ' ' (by simpa using hp3)
  obtain ⟨c5, rfl, hc5⟩ := map_toLower_singleton p5 ' ' (by simpa using hp5)
  -- the tail accepted by the `requests` literal
  have hreq : throttleTailRequests (p6 ++ b2) = true := by
    unfold throttleTailRequests
    rw [litCI_append _ p6 b2 hp6]
    rfl
  -- `many.+?requests` accepts `p4 ++ c5 :: p6 ++ b2` (the run is the space `c5`)
  have hmany : throttleTailMany (p4 ++ (c5 :: (p6 ++ b2))) = true := by
    unfold throttleTailMany
    rw [litCI_append _ p4 (c5 :: (p6 ++ b2)) hp4]
    show dotPlusThen throttleTailRequests (c5 :: (p6 ++ b2)) = true
    rw [dotPlusThen_cons, if_neg (ne_newline_of_toLower_space c5 hc5), hreq, Bool.true_or]
  -- `.+?many.+?requests` accepts `c3 :: ...` (the run is the space `c3`)
  have hdot : dotPlusThen throttleTailMany (c3 :: (p4 ++ (c5 :: (p6 ++ b2)))) = true := by
    rw [dotPlusThen_cons, if_neg (ne_newline_of_toLower_space c3 hc3), hmany, Bool.true_or]
  -- `o?.+?many.+?requests` accepts `c2 :: c3 :: ...` via the optional-`o` branch
  have hafter : throttleAfterTo (c2 :: c3 :: (p4 ++ (c5 :: (p6 ++ b2)))) = true := by
    unfold throttleAfterTo
    simp [hc2, hdot]
  -- full match starting at `p1`
  have hmatch : throttleMatchAt (p1 ++ (c2 :: c3 :: (p4 ++ (c5 :: (p6 ++ b2))))) = true := by
    unfold throttleMatchAt
    rw [litCI_append _ p1 _ hp1]
    exact hafter
  have hfinal := throttleSearch_append _ hmatch a
  simpa [List.append_assoc, List.singleton_append] using hfinal

/-! ## Claim C1 -/

/-- C1: for every HTML document whose text contains the case-insensitive
"too many requests" phrase, extraction fails with `TooManyRequestsError`
(RateLimited) for every page kind — search results, title page and subtitle
page — regardless of what the structural extraction would produce. -/
theorem claim1_throttle_priority {α : Type}
    (structural : Str → Except PageError α)
    (emptyMarker : Str → Bool) (rows : Str → Except PageError (List SubRecord))
    (anchors : Str → List Str) (html : Str)
    (hphrase : ("too many requests".toList) <:+: html.map Char.toLower) :
    titleSearchResultsParser_parse structural html = .error .tooManyRequests ∧
    titlePageParser_parse emptyMarker rows html = .error .tooManyRequests ∧
    subtitlePageParser_parse anchors html = .error .tooManyRequests := by
  have ht := throttleSearch_of_phrase html hphrase
  have he : baseParser_parseErrors html = .error .tooManyRequests := by
    simp [baseParser_parseErrors, ht]
  refine ⟨?_, ?_, ?_⟩ <;>
    simp [titleSearchResultsParser_parse, titlePageParser_parse,
      subtitlePageParser_parse, he]

/-- Concrete document that embeds the rate-limit phrase together with
well-formed structural markup. -/
def throttledHtml : Str :=
  ("<html><h1>Too Many Requests</h1><div class=\"download\"><a href=\"/x\">get</a></div></html>").toList

/-- Witness for C1 at a concrete document, for all three page kinds. -/
theorem claim1_witness :
    titleSearchResultsParser_parse (fun _ => Except.ok (0 : Nat)) throttledHtml =
        .error .tooManyRequests ∧
    titlePageParser_parse (fun _ => false) (fun _ => .ok []) throttledHtml =
        .error .tooManyRequests ∧
    subtitlePageParser_parse (fun _ => ["/x".toList]) throttledHtml =
        .error .tooManyRequests :=
  claim1_throttle_priority _ _ _ _ throttledHtml (by decide)

/-! ## Claim C5 -/

/-- Subtitle-page document with no download anchor (and no throttle phrase). -/
def noAnchorHtml : Str :=
  ("<html><body><div class=\"header\">subtitle page missing its link</div></body></html>").toList

/-- C5, behaviour of the code at the failing input: with zero matched
`.download a` anchors, `SubtitlePageParser.parse` raises `ParsingError`
(xextract `quant="1"` demands exactly one element) instead of returning an
absent value. -/
theorem claim5_absent_anchor_raises :
    subtitlePageParser_parse (fun _ => []) noAnchorHtml = .error .parsingError := by
  rfl

/-! ## Jaro-Winkler similarity (jellyfish)

`cli.match_title` and `api.Subscene._match_movie` score close matches with
`jellyfish.jaro_winkler`.  The model below translates the library's
pure-Python `_jaro_winkler(ying, yang, long_tolerance=False, winklerize=True)`
with IEEE floats replaced by exact rationals.  (The library calls the larger
of the two lengths `min_len`; the same quirk is kept here as `minLen`.) -/

/-- First pass of the Jaro similarity: within the search window, flag matched
character pairs and count them.  State: (common count, ying flags, yang
flags). -/
def jaroCommon (ying yang : Str) (searchRange : Nat) : Nat × List Bool × List Bool :=
  (List.range ying.length).foldl
    (fun acc i =>
      let c := ying.getD i ' '
      let lo := i - searchRange
      let hi := min (i + searchRange) (yang.length - 1)
      match (List.range' lo (hi + 1 - lo)).find?
          (fun j => !(acc.2.2.getD j true) && (yang.getD j ' ' == c)) with
      | some j => (acc.1 + 1, acc.2.1.set i true, acc.2.2.set j true)
      | none => acc)
    (0, List.replicate ying.length false, List.replicate yang.length false)

/-- Second pass of the Jaro similarity: transposition count before halving.
State: (resume index k, transposition count).  In the loop's no-break case
Python leaves `j` at the last index of `range(k, yang_len)`. -/
def jaroTransCount (ying yang : Str) (yingFlags yangFlags : List Bool) : Nat :=
  ((List.range ying.length).foldl
    (fun acc i =>
      if yingFlags.getD i false then
        match (List.range' acc.1 (yang.length - acc.1)).find?
            (fun j => yangFlags.getD j false) with
        | some j =>
            (j + 1, if ying.getD i ' ' = yang.getD j ' ' then acc.2 else acc.2 + 1)
        | none =>
            (acc.1, if ying.getD i ' ' = yang.getD (yang.length - 1) ' ' then acc.2 else acc.2 + 1)
      else acc)
    (0, 0)).2

/-- Length of the common prefix of the two strings, capped at `limit` (the
winkler boost loop; the loop's trailing truthiness test on a one-character
string is always true and is dropped). -/
def winklerPrefixLen (ying yang : Str) (limit : Nat) : Nat :=
  ((List.range limit).takeWhile (fun i => ying.getD i ' ' == yang.getD i ' ')).length

/-- Models `jellyfish.jaro_winkler(ying, yang)`. -/
def jaro_winkler (ying yang : Str) : ℚ :=
  let yingLen := ying.length
  let yangLen := yang.length
  if yingLen = 0 ∨ yangLen = 0 then 0
  else
    let minLen := max yingLen yangLen
    let searchRange := minLen / 2 - 1
    let p := jaroCommon ying yang searchRange
    let commonChars := p.1
    if commonChars = 0 then 0
    else
      let transCount := jaroTransCount ying yang p.2.1 p.2.2 / 2
      let weight : ℚ :=
        ((commonChars : ℚ) / (yingLen : ℚ) + (commonChars : ℚ) / (yangLen : ℚ) +
          ((commonChars : ℚ) - (transCount : ℚ)) / (commonChars : ℚ)) / 3
      if 7/10 < weight ∧ 3 < yingLen ∧ 3 < yangLen then
        let i := winklerPrefixLen ying yang (min minLen 4)
        if i ≠ 0 then weight + (i : ℚ) * (1/10) * (1 - weight) else weight
      else weight

/-! ## Title resolver (cli.match_title and api.Subscene._match_movie) -/

/-- Models the `for match in same_year_matches` selection loop shared by
`cli.match_title` and `api.Subscene._match_movie`: `best_score` starts at 0,
`best_match` at `None`, and a candidate is taken only on a strictly greater
score. -/
def bestMatchLoop {α : Type} (score : α → ℚ) : List α → ℚ → Option α → Option α
  | [], _, best => best
  | m :: rest, bestScore, best =>
    if bestScore < score m then bestMatchLoop score rest (score m) (some m)
    else bestMatchLoop score rest bestScore best

/-- Search-result title record of the cli pipeline: `{url, title, year}`. -/
structure TitleRec where
  url : Str
  title : Str
  year : Str
  deriving DecidableEq

/-- The three named categories of a search-results record set. -/
structure SearchSections where
  exact : List TitleRec
  close : List TitleRec
  popular : List TitleRec
  deriving DecidableEq

/-- Close-category branch shared by the two fall-through paths of
`cli.match_title`: filter to entries with the query year, then run the
selection loop; with an empty close category the function falls through to
`return None`. -/
def closeBranch (title year : Str) (close : List TitleRec) : Option TitleRec :=
  if close = [] then none
  else bestMatchLoop (fun m => jaro_winkler m.title title)
    (close.filter (fun m => m.year == year)) 0 none

/-- Models `cli.match_title(title, year, results)` (the `results["results"]`
unwrapping is done by the caller): a single exact entry is returned
unconditionally; with several exact entries the first with the query year is
returned; otherwise control falls through to the close category. -/
def match_title (title year : Str) (results : SearchSections) : Option TitleRec :=
  if results.exact ≠ [] then
    if results.exact.length = 1 then results.exact.head?
    else
      match results.exact.find? (fun m => m.year == year) with
      | some m => some m
      | none => closeBranch title year results.close
  else closeBranch title year results.close

/-- Search-result record of the `api.py` iteration: the year is still embedded
in the display title. -/
structure MovieRec where
  url : Str
  title : Str
  deriving DecidableEq

/-- Close-category branch of `api.Subscene._match_movie`, with
`Subscene._parse_title` (the regex split of "Title (YYYY)") abstracted as
`parseTitle : displayTitle ↦ (title part, year part)`. -/
def matchMovieClose (parseTitle : Str → Str × Str) (title year : Str)
    (close : List MovieRec) : Option MovieRec :=
  if close = [] then none
  else bestMatchLoop (fun m => jaro_winkler (parseTitle m.title).1 title)
    (close.filter (fun m => (parseTitle m.title).2 == year)) 0 none

/-- Models `api.Subscene._match_movie(title, year, matches)`; structurally the
same algorithm as `match_title`, with years parsed out of display titles. -/
def Subscene_match_movie (parseTitle : Str → Str × Str) (title year : Str)
    (exact close : List MovieRec) : Option MovieRec :=
  if exact ≠ [] then
    if exact.length = 1 then exact.head?
    else
      match exact.find? (fun m => (parseTitle m.title).2 == year) with
      | some m => some m
      | none => matchMovieClose parseTitle title year close
  else matchMovieClose parseTitle title year close

/-! ## Lemmas about the selection loop -/

/-- When no candidate beats the running best score the loop keeps its
accumulator. -/
theorem bestMatchLoop_of_all_le {α : Type} (score : α → ℚ) :
    ∀ (l : List α) (bs : ℚ) (best : Option α),
      (∀ x ∈ l, score x ≤ bs) → bestMatchLoop score l bs best = best := by
  intro l
  induction l with
  | nil => intro bs best _; rfl
  | cons a t ih =>
    intro bs best h
    have ha : ¬ bs < score a := not_lt.mpr (h a (List.mem_cons_self a t))
    simp only [bestMatchLoop, if_neg ha]
    exact ih bs best (fun x hx => h x (List.mem_cons_of_mem a hx))

/-- A selected candidate comes from the list (or was the initial
accumulator). -/
theorem bestMatchLoop_mem {α : Type} (score : α → ℚ) :
    ∀ (l : List α) (bs : ℚ) (best : Option α) (m : α),
      bestMatchLoop score l bs best = some m → m ∈ l ∨ best = some m := by
  intro l
  induction l with
  | nil => intro bs best m h; exact Or.inr h
  | cons a t ih =>
    intro bs best m h
    simp only [bestMatchLoop] at h
    by_cases ha : bs < score a
    · rw [if_pos ha] at h
      rcases ih _ _ _ h with h1 | h1
      · exact Or.inl (List.mem_cons_of_mem a h1)
      · injection h1 with h2
        exact Or.inl (h2 ▸ List.mem_cons_self a t)
    · rw [if_neg ha] at h
      rcases ih _ _ _ h with h1 | h1
      · exact Or.inl (List.mem_cons_of_mem a h1)
      · exact Or.inr h1
/-- When some candidate beats the initial score, the loop returns the first
candidate attaining the maximum score: strictly above all earlier candidates,
at least all later ones. -/
theorem bestMatchLoop_argmax {α : Type} (score : α → ℚ) :
    ∀ (l : List α) (bs : ℚ), (∃ x ∈ l, bs < score x) →
      ∃ m l1 l2, l = l1 ++ m :: l2 ∧ bs < score m ∧
        (∀ y ∈ l1, score y < score m) ∧ (∀ z ∈ l2, score z ≤ score m) ∧
        ∀ best, bestMatchLoop score l bs best = some m := by
  intro l
  induction l with
  | nil => intro bs h; simp at h
  | cons a t ih =>
    intro bs hex
    by_cases ha : bs < score a
    · by_cases ht : ∃ x ∈ t, score a < score x
      · obtain ⟨m, l1, l2, heq, hm, h1, h2, hrun⟩ := ih (score a) ht
        refine ⟨m, a :: l1, l2, by rw [heq]; rfl, lt_trans ha hm, ?_, h2, ?_⟩
        · intro y hy
          rcases List.mem_cons.mp hy with hy1 | hy2
          · rw [hy1]; exact hm
          · exact h1 y hy2
        · intro best
          simp only [bestMatchLoop, if_pos ha]
          exact hrun (some a)
      · push_neg at ht
        refine ⟨a, [], t, rfl, ha, by simp, ht, ?_⟩
        intro best
        simp only [bestMatchLoop, if_pos ha]
        exact bestMatchLoop_of_all_le score t (score a) (some a) ht
    · obtain ⟨x, hx, hbx⟩ := hex
      have hxt : x ∈ t := by
        rcases List.mem_cons.mp hx with h1 | h2
        · exact absurd (h1 ▸ hbx) ha
        · exact h2
      obtain ⟨m, l1, l2, heq, hm, h1, h2, hrun⟩ := ih bs ⟨x, hxt, hbx⟩
      refine ⟨m, a :: l1, l2, by rw [heq]; rfl, hm, ?_, h2, ?_⟩
      · intro y hy
        rcases List.mem_cons.mp hy with hy1 | hy2
        · rw [hy1]; exact lt_of_le_of_lt (not_lt.mp ha) hm
        · exact h1 y hy2
      · intro best
        simp only [bestMatchLoop, if_neg ha]
        exact hrun best

/-! ## Claim C2 -/

/-- C2: a search result whose exact category holds exactly one entry resolves
to that entry, for every query year (no year comparison happens), in both the
cli and the api implementation of the resolver. -/
theorem claim2_single_exact (title year : Str) (e : TitleRec)
    (close popular : List TitleRec) (parseTitle : Str → Str × Str)
    (e2 : MovieRec) (close2 : List MovieRec) :
    match_title title year ⟨[e], close, popular⟩ = some e ∧
    Subscene_match_movie parseTitle title year [e2] close2 = some e2 := by
  constructor
  · simp [match_title]
  · simp [Subscene_match_movie]

/-! ## Claims C3, C4, C10 -/

/-- Same-year close entry whose title shares no character with the query
title "abc"; its Jaro-Winkler score is exactly 0. -/
def closeZ : TitleRec :=
  ⟨"/subtitles/xyz".toList, "xyz".toList, "2000".toList⟩

/-- C3 counterexample: the restricted (same-year) close set is the non-empty
list `[closeZ]`, whose highest-scoring entry is `closeZ` itself, yet the
resolver returns `none` rather than that entry — its score against the query
is 0 and the loop demands a strictly positive improvement. -/
theorem claim3_counterexample :
    ([closeZ] : List TitleRec).filter (fun m => m.year == ("2000".toList)) = [closeZ] ∧
    match_title ("abc".toList) ("2000".toList) ⟨[], [closeZ], []⟩ = none := by
  decide

/-- C3 (amended): with the close branch reached, the resolver restricts to
same-year close entries before scoring — a mismatched-year entry is never
returned — and whenever some restricted entry has a strictly positive
Jaro-Winkler score it returns the first-encountered restricted entry
attaining the maximum score; (only) when every restricted entry scores 0
does it return no entry. -/
theorem claim3_amended (title year : Str) (results : SearchSections)
    (hx : results.exact = []) :
    (∀ m, match_title title year results = some m →
        m ∈ results.close.filter (fun r => r.year == year)) ∧
    (∀ m0 ∈ results.close.filter (fun r => r.year == year),
        0 < jaro_winkler m0.title title →
      ∃ m l1 l2,
        match_title title year results = some m ∧
        results.close.filter (fun r => r.year == year) = l1 ++ m :: l2 ∧
        (∀ y ∈ l1, jaro_winkler y.title title < jaro_winkler m.title title) ∧
        (∀ z ∈ l2, jaro_winkler z.title title ≤ jaro_winkler m.title title)) := by
  have hmt : match_title title year results = closeBranch title year results.close := by
    simp [match_title, hx]
  constructor
  · intro m hm
    rw [hmt] at hm
    unfold closeBranch at hm
    by_cases hcl : results.close = []
    · rw [if_pos hcl] at hm
      exact absurd hm (by simp)
    · rw [if_neg hcl] at hm
      rcases bestMatchLoop_mem _ _ _ _ _ hm with h | h
      · exact h
      · exact absurd h (by simp)
  · intro m0 hm0 hpos
    have hcl : results.close ≠ [] := by
      intro h
      rw [h] at hm0
      simp at hm0
    obtain ⟨m, l1, l2, heq, _, h1, h2, hrun⟩ :=
      bestMatchLoop_argmax (fun m => jaro_winkler m.title title)
        (results.close.filter (fun r => r.year == year)) 0 ⟨m0, hm0, hpos⟩
    refine ⟨m, l1, l2, ?_, heq, h1, h2⟩
    rw [hmt]
    unfold closeBranch
    rw [if_neg hcl]
    exact hrun none

/-- Close entry equal to the witness query "Heat (1995)". -/
def closeH : TitleRec :=
  ⟨"/subtitles/heat".toList, "Heat".toList, "1995".toList⟩

/-- The Jaro-Winkler score of "Heat" against itself is positive (it is 1).
Batteries marks the rational operations irreducible, so the integer passes
are evaluated by `decide` and the final rational formula by `norm_num`. -/
theorem jaro_winkler_heat_pos : (0:ℚ) < jaro_winkler ['H','e','a','t'] ['H','e','a','t'] := by
  have h1 : jaroCommon ['H','e','a','t'] ['H','e','a','t'] 1 =
      (4, ([true,true,true,true], [true,true,true,true])) := by decide
  have h2 : jaroTransCount ['H','e','a','t'] ['H','e','a','t']
      [true,true,true,true] [true,true,true,true] = 0 := by decide
  have h3 : winklerPrefixLen ['H','e','a','t'] ['H','e','a','t'] 4 = 4 := by decide
  unfold jaro_winkler
  norm_num [h1, h2, h3]

/-- Witness for the amended C3: at a concrete query the resolver's returned
entry is a member of the same-year restricted close set. -/
theorem claim3_witness :
    closeH ∈ ([closeH] : List TitleRec).filter (fun r => r.year == ("1995".toList)) := by
  have hmt : match_title ("Heat".toList) ("1995".toList) ⟨[], [closeH], []⟩ = some closeH := by
    have hfilter : ([closeH] : List TitleRec).filter (fun r => r.year == ("1995".toList)) =
        [closeH] := by decide
    simp [match_title, closeBranch, hfilter, bestMatchLoop, closeH, jaro_winkler_heat_pos]
  exact (claim3_amended ("Heat".toList) ("1995".toList) ⟨[], [closeH], []⟩ rfl).1
    closeH hmt

/-- Exact entries for two productions, neither from the query year 2000. -/
def exactA : TitleRec :=
  ⟨"/subtitles/heat-1995".toList, "Heat".toList, "1995".toList⟩

/-- Second exact entry, also not from the query year. -/
def exactB : TitleRec :=
  ⟨"/subtitles/heat-1972".toList, "Heat".toList, "1972".toList⟩

/-- Close entry from the query year 2000. -/
def closeC : TitleRec :=
  ⟨"/subtitles/heat-2000".toList, "Heat".toList, "2000".toList⟩

/-- C4 counterexample: the exact category has two entries, neither with the
query year, yet the resolver does not return `NoMatch` — it falls through to
the close category and returns `closeC`. -/
theorem claim4_counterexample :
    match_title ("Heat".toList) ("2000".toList) ⟨[exactA, exactB], [closeC], []⟩ =
      some closeC := by
  have hfind : ([exactA, exactB] : List TitleRec).find?
      (fun m => m.year == ['2','0','0','0']) = none := by decide
  have hfilter : ([closeC] : List TitleRec).filter
      (fun m => m.year == ['2','0','0','0']) = [closeC] := by decide
  simp [match_title, hfind, closeBranch, hfilter, bestMatchLoop, closeC,
    jaro_winkler_heat_pos]

/-- C4 (amended): when the exact category has two or more entries, none of
which carries the query year, and the close category is empty (as on real
search pages, where the exact and close categories are mutually exclusive),
the resolver returns no entry. -/
theorem claim4_amended (title year : Str) (results : SearchSections)
    (hlen : 2 ≤ results.exact.length)
    (hyear : ∀ e ∈ results.exact, e.year ≠ year)
    (hclose : results.close = []) :
    match_title title year results = none := by
  have hne : results.exact ≠ [] := by
    intro h
    rw [h] at hlen
    simp at hlen
  have hlen1 : results.exact.length ≠ 1 := by omega
  have hfind : results.exact.find? (fun m => m.year == year) = none := by
    rw [List.find?_eq_none]
    intro x hx
    simpa using hyear x hx
  simp [match_title, hne, hlen1, hfind, closeBranch, hclose]

/-- Witness for the amended C4 at a concrete two-entry exact set. -/
theorem claim4_witness :
    match_title ("Heat".toList) ("2000".toList) ⟨[exactA, exactB], [], []⟩ = none :=
  claim4_amended _ _ _ (by decide) (by decide) rfl

/-- C10: with an empty exact category, a non-empty close category, and every
same-year close entry scoring exactly 0 against the query title, the resolver
returns `none` even though same-year close entries exist — the best score is
initialised to 0 and a candidate is selected only on a strictly greater
score. -/
theorem claim10_zero_scores (title year : Str) (results : SearchSections)
    (hx : results.exact = []) (hc : results.close ≠ [])
    (hzero : ∀ m ∈ results.close, m.year = year → jaro_winkler m.title title = 0)
    (_hexists : ∃ m ∈ results.close, m.year = year) :
    match_title title year results = none := by
  have hmt : match_title title year results = closeBranch title year results.close := by
    simp [match_title, hx]
  rw [hmt]
  unfold closeBranch
  rw [if_neg hc]
  apply bestMatchLoop_of_all_le
  intro x hx2
  rcases List.mem_filter.mp hx2 with ⟨hmem, hyear⟩
  have hxy : x.year = year := by simpa using hyear
  exact le_of_eq (hzero x hmem hxy)

/-- Witness for C10 at a concrete zero-scoring same-year close entry. -/
theorem claim10_witness :
    match_title ("abc".toList) ("2000".toList) ⟨[], [closeZ], []⟩ = none :=
  claim10_zero_scores _ _ _ rfl (by decide) (by decide) ⟨closeZ, by decide, rfl⟩

/-! ## Subtitle selection filters (cli.filter_by_rating, cli.filter_by_tags) -/

/-- Python `ValueError` as raised by `list.index` and by `cli.decode`. -/
inductive PyError where
  | valueError
  deriving DecidableEq

/-- Models `api.Subscene.RATING`: the three textual ratings used by
subscene.com. -/
inductive RATING where
  | positive
  | neutral
  | bad
  deriving DecidableEq

/-- The `value` of each `RATING` member. -/
def RATING.value : RATING → Str
  | .positive => "positive".toList
  | .neutral => "neutral".toList
  | .bad => "bad".toList

/-- The `rating_scale` list of `cli.filter_by_rating`:
`[RATING.BAD.value, RATING.NEUTRAL.value, RATING.POSITIVE.value]`. -/
def rating_scale : List Str :=
  [RATING.bad.value, RATING.neutral.value, RATING.positive.value]

/-- Models Python `list.index`: the first index of `x`, or `ValueError` when
`x` does not occur. -/
def pyListIndex (l : List Str) (x : Str) : Except PyError Nat :=
  match l with
  | [] => .error .valueError
  | a :: t => if a = x then .ok 0 else (pyListIndex t x).map (fun i => i + 1)

/-- The accumulation loop of `cli.filter_by_rating`: a subtitle is kept when
`rating_scale.index(subtitle["rating"]) >= min_rating_value`; an unknown
rating string raises `ValueError` out of the whole call. -/
def filterByRatingLoop (minRatingValue : Nat) :
    List SubRecord → Except PyError (List SubRecord)
  | [] => .ok []
  | s :: rest =>
    match pyListIndex rating_scale s.rating with
    | .error e => .error e
    | .ok rv =>
      match filterByRatingLoop minRatingValue rest with
      | .error e => .error e
      | .ok tail => if minRatingValue ≤ rv then .ok (s :: tail) else .ok tail

/-- Models `cli.filter_by_rating(subtitles, min_rating=api.RATING.NEUTRAL)`. -/
def filter_by_rating (subtitles : List SubRecord)
    (min_rating : RATING := RATING.neutral) : Except PyError (List SubRecord) :=
  match pyListIndex rating_scale min_rating.value with
  | .error e => .error e
  | .ok minRatingValue => filterByRatingLoop minRatingValue subtitles

/-- Models Python substring membership `needle in hay`. -/
def strContains : Str → Str → Bool
  | [], needle => needle.isEmpty
  | c :: t, needle => needle.isPrefixOf (c :: t) || strContains t needle

/-- Case-insensitive tag test `tag.lower() in name.lower()` from
`cli.filter_by_tags`. -/
def tagInName (name tag : Str) : Bool :=
  strContains (name.map Char.toLower) (tag.map Char.toLower)

/-- Models `cli.filter_by_tags(subtitles, tags)`: the empty tag list passes
the input through unchanged; otherwise the for/break/else loop keeps exactly
the records whose name matches every tag. -/
def filter_by_tags (subtitles : List SubRecord) (tags : List Str) : List SubRecord :=
  if tags.length = 0 then subtitles
  else subtitles.filter (fun s => tags.all (fun tag => tagInName s.name tag))

/-! ## Decoder (cli.decode) -/

/-- The encoding name "utf-8-sig". -/
def encodingUtf8Sig : Str := "utf-8-sig".toList

/-- The encoding name "windows-1256". -/
def encodingWin1256 : Str := "windows-1256".toList

/-- The encoding name "utf-16". -/
def encodingUtf16 : Str := "utf-16".toList

/-- The language code "ar" (Arabic). -/
def arabicCode : Str := "ar".toList

/-- The per-encoding attempt loop of `cli.decode`: first successful decode
wins; when the list is exhausted `ValueError` is raised. -/
def decodeLoop (pyDecode : Str → List Nat → Option Str) (blob : List Nat) :
    List Str → Except PyError Str
  | [] => .error .valueError
  | enc :: rest =>
    match pyDecode enc blob with
    | some text => .ok text
    | none => decodeLoop pyDecode blob rest

/-- Models `cli.decode(blob, language_code)`, with the Python codec machinery
abstracted as `pyDecode : encoding name → bytes → decoded text or failure`:
the encoding list starts as `["utf-8-sig"]` and is extended with
`["windows-1256", "utf-16"]` exactly when the language code is `"ar"`. -/
def decode (pyDecode : Str → List Nat → Option Str) (blob : List Nat)
    (language_code : Str) : Except PyError Str :=
  decodeLoop pyDecode blob
    ([encodingUtf8Sig] ++
      (if language_code = arabicCode then [encodingWin1256, encodingUtf16] else []))

/-! ## Language argument converter (cli.arg_language, api.Subscene.LANGUAGES) -/

/-- Errors of `cli.arg_language`: `argparse.ArgumentTypeError`, and the
uncaught `KeyError` that `api.LANGUAGES[name]` raises for a name missing from
the enum (the `if not api.LANGUAGES[...]` guard never fires for members, and
a non-member raises before the guard is reached). -/
inductive ArgError where
  | argumentTypeError
  | keyError
  deriving DecidableEq

/-- Models the `api.Subscene.LANGUAGES` enum as a name/value table, entry for
entry.  The ids 3, 6, 7, 12, 15 and 24 (encodings and dual-language packs)
are not members, exactly as in the source. -/
def LANGUAGES : List (Str × Nat) :=
  [("SQ".toList, 1), ("AR".toList, 2), ("PT_BR".toList, 4), ("BG".toList, 5),
   ("HR".toList, 8), ("CS".toList, 9), ("DA".toList, 10), ("NL".toList, 11),
   ("EN".toList, 13), ("ET".toList, 16), ("FI".toList, 17), ("FR".toList, 18),
   ("DE".toList, 19), ("EL".toList, 21), ("IW".toList, 22), ("HU".toList, 23),
   ("IS".toList, 25), ("IT".toList, 26), ("JA".toList, 27), ("KO".toList, 28),
   ("LV".toList, 29), ("NO".toList, 30), ("PL".toList, 31), ("PT".toList, 32),
   ("RO".toList, 33), ("RU".toList, 34), ("SR".toList, 35), ("SK".toList, 36),
   ("SL".toList, 37), ("ES".toList, 38), ("SV".toList, 39), ("TH".toList, 40),
   ("TR".toList, 41), ("UR".toList, 42), ("LT".toList, 43), ("ID".toList, 44),
   ("VI".toList, 45), ("FA".toList, 46), ("EO".toList, 47), ("MK".toList, 48),
   ("CA".toList, 49), ("MS".toList, 50), ("HI".toList, 51), ("KU".toList, 52),
   ("TL".toList, 53), ("BN".toList, 54), ("AZ".toList, 55), ("UK".toList, 56),
   ("KL".toList, 57), ("SI".toList, 58), ("TA".toList, 59), ("BS".toList, 60),
   ("MY".toList, 61), ("KA".toList, 62), ("TE".toList, 63), ("ML".toList, 64),
   ("MNI".toList, 65), ("PA".toList, 66), ("PS".toList, 67), ("BE".toList, 68),
   ("SO".toList, 70), ("YO".toList, 71), ("MN".toList, 72), ("HY".toList, 73),
   ("EU".toList, 74), ("SW".toList, 75), ("SU".toList, 76), ("KN".toList, 78),
   ("KM".toList, 79), ("NE".toList, 80)]

/-- Enum lookup by value, `api.LANGUAGES(id)`: `some name` for a member value,
`none` for the `ValueError` raised on a non-member value. -/
def LANGUAGES_ofValue (id : Nat) : Option Str :=
  (LANGUAGES.find? (fun p => p.2 == id)).map (fun p => p.1)

/-- Enum lookup by name, `api.LANGUAGES[NAME]`: `some value` for a member
name, `none` for the `KeyError` raised on a missing name. -/
def LANGUAGES_byName (name : Str) : Option Nat :=
  (LANGUAGES.find? (fun p => p.1 == name)).map (fun p => p.2)

/-- Models Python `int(code)` for the decimal strings relevant here: an
all-digit string parses to its value, anything else raises `ValueError`. -/
def parseIntStr (s : Str) : Option Nat :=
  if s ≠ [] ∧ s.all Char.isDigit then
    some (s.foldl (fun acc c => acc * 10 + (c.toNat - 48)) 0)
  else none

/-- The result of the language argument converter: the subscene numeric id
plus the language code used for the output file name. -/
structure LangArg where
  id : Nat
  code : Str
  deriving DecidableEq

/-- The numeric-ID lookup path of `cli.arg_language` (its `try` block): parse
the argument as an int and call `api.LANGUAGES(language_id)`.  `none` means a
`ValueError` was raised inside the block — by `int()` or by the enum call on a
non-member id — and control falls through to the ISO-code path.  (The dead
`if language:` guard of the source never fires: enum members are truthy.) -/
def numericLookup (code : Str) : Option LangArg :=
  match parseIntStr code with
  | none => none
  | some id =>
    match LANGUAGES_ofValue id with
    | some name => some ⟨id, name.map Char.toLower⟩
    | none => none

/-- Entry of the external iso639 database: the ISO 639-1 and 639-2/B codes of
a language, empty when absent. -/
structure IsoLanguage where
  part1 : Str
  part2b : Str
  deriving DecidableEq

/-- The ISO-code path of `cli.arg_language`, with the external
`iso639.languages.get` lookups abstracted as `isoGet` (`isoGet true c` is the
`part1` lookup used for 2-letter codes, `isoGet false c` the `part2b` lookup;
`none` is the library's `KeyError`, reported as `ArgumentTypeError`).  The
final `api.LANGUAGES[available_code.upper()]` raises an uncaught `KeyError`
when the code is not an enum name. -/
def isoCodePath (isoGet : Bool → Str → Option IsoLanguage) (code : Str) :
    Except ArgError LangArg :=
  match (if code.length = 2 then isoGet true code else isoGet false code) with
  | none => .error .argumentTypeError
  | some lang =>
    match LANGUAGES_byName
        ((if lang.part1 ≠ [] then lang.part1 else lang.part2b).map Char.toUpper) with
    | some v => .ok ⟨v, if lang.part1 ≠ [] then lang.part1 else lang.part2b⟩
    | none => .error .keyError

/-- Models `cli.arg_language(code)`: the `pt-br` special case first
(`api.LANGUAGES["PT_BR"].value` with code `"pt"`), then the numeric-ID path,
then the ISO-code path. -/
def arg_language (isoGet : Bool → Str → Option IsoLanguage) (code : Str) :
    Except ArgError LangArg :=
  if code = "pt-br".toList then
    .ok ⟨(LANGUAGES_byName ("PT_BR".toList)).getD 0, "pt".toList⟩
  else
    match numericLookup code with
    | some r => .ok r
    | none => isoCodePath isoGet code

/-! ## Claim C6 -/

/-- `list.index` succeeds on a member. -/
theorem pyListIndex_ok_of_mem (x : Str) : ∀ (l : List Str), x ∈ l →
    ∃ i, pyListIndex l x = .ok i := by
  intro l
  induction l with
  | nil => intro h; simp at h
  | cons a t ih =>
    intro h
    by_cases hax : a = x
    · exact ⟨0, by simp [pyListIndex, hax]⟩
    · have hxt : x ∈ t := by
        rcases List.mem_cons.mp h with h1 | h2
        · exact absurd h1.symm hax
        · exact h2
      obtain ⟨i, hi⟩ := ih hxt
      exact ⟨i + 1, by simp [pyListIndex, hax, hi, Except.map]⟩

/-- Raising the rating threshold shrinks the kept sublist: for valid rating
strings both runs succeed, the stricter result is a sublist of the looser
one, and the looser result is a sublist of the input (order preserved). -/
theorem filterByRatingLoop_mono (m1 m2 : Nat) (hm : m1 ≤ m2) :
    ∀ subs : List SubRecord, (∀ s ∈ subs, s.rating ∈ rating_scale) →
      ∃ r1 r2, filterByRatingLoop m1 subs = .ok r1 ∧
        filterByRatingLoop m2 subs = .ok r2 ∧
        List.Sublist r2 r1 ∧ List.Sublist r1 subs := by
  intro subs
  induction subs with
  | nil => intro _; exact ⟨[], [], rfl, rfl, List.Sublist.refl _, List.Sublist.refl _⟩
  | cons s rest ih =>
    intro h
    obtain ⟨i, hi⟩ :=
      pyListIndex_ok_of_mem s.rating rating_scale (h s (List.mem_cons_self s rest))
    obtain ⟨r1, r2, h1, h2, h21, h1s⟩ := ih (fun x hx => h x (List.mem_cons_of_mem s hx))
    by_cases hm1 : m1 ≤ i
    · by_cases hm2 : m2 ≤ i
      · exact ⟨s :: r1, s :: r2,
          by simp [filterByRatingLoop, hi, h1, hm1],
          by simp [filterByRatingLoop, hi, h2, hm2],
          List.Sublist.cons₂ s h21, List.Sublist.cons₂ s h1s⟩
      · exact ⟨s :: r1, r2,
          by simp [filterByRatingLoop, hi, h1, hm1],
          by simp [filterByRatingLoop, hi, h2, hm2],
          List.Sublist.cons s h21, List.Sublist.cons₂ s h1s⟩
    · have hm2 : ¬ m2 ≤ i := fun hc => hm1 (le_trans hm hc)
      exact ⟨r1, r2,
        by simp [filterByRatingLoop, hi, h1, hm1],
        by simp [filterByRatingLoop, hi, h2, hm2],
        h21, List.Sublist.cons s h1s⟩

/-- C6: on any record list whose ratings all lie on the scale, the rating
filter succeeds for each threshold, the `positive` result is a sublist of the
`neutral` one, which is a sublist of the `bad` one (hence subsets by record
identity), the lengths are monotonically non-increasing as the threshold
rises, and every result preserves the input order (each is a sublist of the
input). -/
theorem claim6_rating_monotone (subtitles : List SubRecord)
    (h : ∀ s ∈ subtitles, s.rating ∈ rating_scale) :
    ∃ rb rn rp,
      filter_by_rating subtitles RATING.bad = .ok rb ∧
      filter_by_rating subtitles RATING.neutral = .ok rn ∧
      filter_by_rating subtitles RATING.positive = .ok rp ∧
      List.Sublist rp rn ∧ List.Sublist rn rb ∧ List.Sublist rb subtitles ∧
      List.Sublist rn subtitles ∧ List.Sublist rp subtitles ∧
      rp.length ≤ rn.length ∧ rn.length ≤ rb.length ∧ rb.length ≤ subtitles.length := by
  obtain ⟨rb, rn, hb, hn, hnb, hbs⟩ := filterByRatingLoop_mono 0 1 (by omega) subtitles h
  obtain ⟨rn2, rp, hn2, hp, hpn, _⟩ := filterByRatingLoop_mono 1 2 (by omega) subtitles h
  have hrn : rn2 = rn := by
    rw [hn] at hn2
    injection hn2 with h12
    exact h12.symm
  subst hrn
  refine ⟨rb, rn2, rp, ?_, ?_, ?_, hpn, hnb, hbs,
    hnb.trans hbs, hpn.trans (hnb.trans hbs),
    hpn.length_le, hnb.length_le, hbs.length_le⟩
  · show filterByRatingLoop 0 subtitles = .ok rb
    exact hb
  · show filterByRatingLoop 1 subtitles = .ok rn2
    exact hn
  · show filterByRatingLoop 2 subtitles = .ok rp
    exact hp

/-- Demo record list with one rating of each kind. -/
def demoSubs : List SubRecord :=
  [⟨"u1".toList, "n1".toList, "positive".toList⟩,
   ⟨"u2".toList, "n2".toList, "bad".toList⟩,
   ⟨"u3".toList, "n3".toList, "neutral".toList⟩]

/-- Witness for C6 on a concrete record list. -/
theorem claim6_witness :
    ∃ rb rn rp,
      filter_by_rating demoSubs RATING.bad = .ok rb ∧
      filter_by_rating demoSubs RATING.neutral = .ok rn ∧
      filter_by_rating demoSubs RATING.positive = .ok rp ∧
      List.Sublist rp rn ∧ List.Sublist rn rb ∧ List.Sublist rb demoSubs ∧
      List.Sublist rn demoSubs ∧ List.Sublist rp demoSubs ∧
      rp.length ≤ rn.length ∧ rn.length ≤ rb.length ∧ rb.length ≤ demoSubs.length :=
  claim6_rating_monotone demoSubs (by decide)

/-! ## Claim C7 -/

/-- The substring test agrees with list-infix on the lowered strings. -/
theorem strContains_eq_true_iff (hay needle : Str) :
    strContains hay needle = true ↔ needle <:+: hay := by
  induction hay with
  | nil =>
    simp [strContains, List.isEmpty_iff]
  | cons c t ih =>
    simp [strContains, List.infix_cons_iff, ih, List.isPrefixOf_iff_prefix,
      or_comm]

/-- C7: the tag filter keeps exactly the records for which every supplied tag
is a case-insensitive substring of the record name (conjunctive over the
tags), and the empty tag list returns the input unchanged. -/
theorem claim7_tags_conjunctive (subtitles : List SubRecord) (tags : List Str) :
    filter_by_tags subtitles [] = subtitles ∧
    (∀ s, s ∈ filter_by_tags subtitles tags ↔
      s ∈ subtitles ∧ ∀ tag ∈ tags,
        (tag.map Char.toLower) <:+: (s.name.map Char.toLower)) := by
  constructor
  · rfl
  · intro s
    by_cases htags : tags.length = 0
    · have h0 : tags = [] := List.length_eq_zero.mp htags
      subst h0
      simp [filter_by_tags]
    · simp [filter_by_tags, htags, List.mem_filter, List.all_eq_true, tagInName,
        strContains_eq_true_iff]

/-- Record whose name carries both witness tags. -/
def subBoth : SubRecord := ⟨"u1".toList, "a.b.c".toList, "neutral".toList⟩

/-- Record whose name carries only one of the witness tags. -/
def subOne : SubRecord := ⟨"u2".toList, "a.c".toList, "neutral".toList⟩

/-- Witness for C7: with tags `["A", "b"]` the record matching both tags
(case-insensitively) is kept and the record matching only one is dropped. -/
theorem claim7_witness :
    subBoth ∈ filter_by_tags [subBoth, subOne] ["A".toList, "b".toList] ∧
    subOne ∉ filter_by_tags [subBoth, subOne] ["A".toList, "b".toList] := by
  constructor
  · exact ((claim7_tags_conjunctive [subBoth, subOne] ["A".toList, "b".toList]).2
      subBoth).mpr ⟨by decide, by decide⟩
  · intro hmem
    have h2 := ((claim7_tags_conjunctive [subBoth, subOne] ["A".toList, "b".toList]).2
      subOne).mp hmem
    exact absurd (h2.2 ("b".toList) (by decide)) (by decide)

/-! ## Claim C8 -/

/-- C8: the decoder first tries UTF-8 (with BOM handling); on failure the
fallbacks windows-1256 and then UTF-16 are consulted exactly when the
language is Arabic, the first success is returned, and exhaustion raises the
decode error; for every other language a UTF-8 failure is the immediate
decode error, whatever the fallback codecs would have produced. -/
theorem claim8_fallback_chain (pyDecode : Str → List Nat → Option Str)
    (blob : List Nat) (language_code : Str) :
    (∀ t, pyDecode encodingUtf8Sig blob = some t →
        decode pyDecode blob language_code = .ok t) ∧
    (pyDecode encodingUtf8Sig blob = none → language_code ≠ arabicCode →
        decode pyDecode blob language_code = .error .valueError) ∧
    (∀ t, language_code = arabicCode → pyDecode encodingUtf8Sig blob = none →
        pyDecode encodingWin1256 blob = some t →
        decode pyDecode blob language_code = .ok t) ∧
    (∀ t, language_code = arabicCode → pyDecode encodingUtf8Sig blob = none →
        pyDecode encodingWin1256 blob = none →
        pyDecode encodingUtf16 blob = some t →
        decode pyDecode blob language_code = .ok t) ∧
    (language_code = arabicCode → pyDecode encodingUtf8Sig blob = none →
        pyDecode encodingWin1256 blob = none →
        pyDecode encodingUtf16 blob = none →
        decode pyDecode blob language_code = .error .valueError) := by
  refine ⟨?_, ?_, ?_, ?_, ?_⟩
  · intro t h
    by_cases har : language_code = arabicCode <;>
      simp [decode, har, decodeLoop, h]
  · intro h hne
    simp [decode, hne, decodeLoop, h]
  · intro t har h1 h2
    simp [decode, har, decodeLoop, h1, h2]
  · intro t har h1 h2 h3
    simp [decode, har, decodeLoop, h1, h2, h3]
  · intro har h1 h2 h3
    simp [decode, har, decodeLoop, h1, h2, h3]

/-- Demo codec family for the C8 witness: UTF-8 accepts only 7-bit bytes, the
legacy Arabic code page accepts anything, UTF-16 accepts nothing. -/
def demoDecode : Str → List Nat → Option Str := fun enc blob =>
  if enc = encodingWin1256 then some (blob.map Char.ofNat)
  else if blob.all (· < 128) then some (blob.map Char.ofNat) else none

/-- Witness for C8: at the non-UTF-8 byte 255 a non-Arabic language fails
immediately — even though the fallback codec would accept the blob — while
Arabic falls back to windows-1256 and succeeds. -/
theorem claim8_witness :
    decode demoDecode [255] ("fr".toList) = .error .valueError ∧
    decode demoDecode [255] arabicCode = .ok ([255].map Char.ofNat) := by
  constructor
  · exact (claim8_fallback_chain demoDecode [255] ("fr".toList)).2.1
      (by decide) (by decide)
  · exact (claim8_fallback_chain demoDecode [255] arabicCode).2.2.1
      ([255].map Char.ofNat) rfl (by decide) rfl

/-! ## Claim C9 -/

/-- A value looked up by name comes from the table. -/
theorem LANGUAGES_byName_mem (name : Str) (v : Nat)
    (h : LANGUAGES_byName name = some v) :
    v ∈ LANGUAGES.map (fun p => p.2) := by
  unfold LANGUAGES_byName at h
  cases hf : LANGUAGES.find? (fun p => p.1 == name) with
  | none => rw [hf] at h; simp at h
  | some p =>
    rw [hf] at h
    simp at h
    rw [← h]
    exact List.mem_map_of_mem _ (List.mem_of_find?_eq_some hf)

/-- An id accepted by the numeric-ID lookup path is an enum member value. -/
theorem numericLookup_mem (s : Str) (r : LangArg) (h : numericLookup s = some r) :
    r.id ∈ LANGUAGES.map (fun p => p.2) := by
  unfold numericLookup at h
  cases hp : parseIntStr s with
  | none =>
    simp only [hp] at h
    exact Option.noConfusion h
  | some id =>
    simp only [hp] at h
    cases hv : LANGUAGES_ofValue id with
    | none =>
      simp only [hv] at h
      exact Option.noConfusion h
    | some name =>
      simp only [hv] at h
      injection h with h1
      rw [← h1]
      unfold LANGUAGES_ofValue at hv
      cases hf : LANGUAGES.find? (fun p => p.2 == id) with
      | none => rw [hf] at hv; simp at hv
      | some p =>
        have hpid := List.find?_some hf
        have hpid2 : p.2 = id := by simpa using hpid
        show id ∈ LANGUAGES.map (fun p => p.2)
        rw [← hpid2]
        exact List.mem_map_of_mem _ (List.mem_of_find?_eq_some hf)

/-- Every id the converter can return is an enum member value. -/
theorem arg_language_ok_mem (isoGet : Bool → Str → Option IsoLanguage)
    (code : Str) (r : LangArg) (h : arg_language isoGet code = .ok r) :
    r.id ∈ LANGUAGES.map (fun p => p.2) := by
  unfold arg_language at h
  by_cases hpt : code = "pt-br".toList
  · rw [if_pos hpt] at h
    injection h with h1
    rw [← h1]
    decide
  · rw [if_neg hpt] at h
    cases hnl : numericLookup code with
    | some r2 =>
      simp only [hnl] at h
      injection h with h1
      rw [← h1]
      exact numericLookup_mem code r2 hnl
    | none =>
      simp only [hnl] at h
      unfold isoCodePath at h
      cases hl : (if code.length = 2 then isoGet true code else isoGet false code) with
      | none =>
        simp only [hl] at h
        exact Except.noConfusion h
      | some lang =>
        simp only [hl] at h
        cases hbn : LANGUAGES_byName
            ((if lang.part1 ≠ [] then lang.part1 else lang.part2b).map Char.toUpper) with
        | none =>
          simp only [hbn] at h
          exact Except.noConfusion h
        | some v =>
          simp only [hbn] at h
          injection h with h1
          rw [← h1]
          exact LANGUAGES_byName_mem _ v hbn

/-- An iso639 model agreeing with the real database at the inputs used below:
decimal digit strings are not ISO 639 codes. -/
def isoGetNone : Bool → Str → Option IsoLanguage := fun _ _ => none

/-- C9 counterexample: for the encoding id 3 the numeric-ID lookup path does
not succeed — `api.LANGUAGES(3)` raises `ValueError`, control falls through
to the ISO-code path, and the converter rejects the argument instead of
returning `{id: 3}`. -/
theorem claim9_counterexample :
    numericLookup ("3".toList) = none ∧
    arg_language isoGetNone ("3".toList) = .error .argumentTypeError :=
  ⟨rfl, rfl⟩

/-- C9 (amended): the six encoding/dual-language ids 3, 6, 7, 12, 15 and 24
are not `LANGUAGES` members, so enum lookup by value fails for them, the
numeric-ID path falls through to the ISO-code path for any argument parsing
to them, and no path of the converter — for any iso639 database — can ever
return one of these ids. -/
theorem claim9_amended (n : Nat) (hn : n ∈ [3, 6, 7, 12, 15, 24]) :
    LANGUAGES_ofValue n = none ∧
    (∀ s, parseIntStr s = some n → numericLookup s = none) ∧
    (∀ isoGet code r, arg_language isoGet code = .ok r → r.id ≠ n) := by
  have hnv : n ∉ LANGUAGES.map (fun p => p.2) := by fin_cases hn <;> decide
  have hofv : LANGUAGES_ofValue n = none := by fin_cases hn <;> decide
  refine ⟨hofv, ?_, ?_⟩
  · intro s hs
    unfold numericLookup
    simp only [hs, hofv]
  · intro isoGet code r h hrn
    apply hnv
    rw [← hrn]
    exact arg_language_ok_mem isoGet code r h

/-- Witness for the amended C9 at the concrete id 3. -/
theorem claim9_witness :
    LANGUAGES_ofValue 3 = none ∧ numericLookup ("3".toList) = none := by
  have h := claim9_amended 3 (by decide)
  exact ⟨h.1, h.2.1 ("3".toList) (by decide)⟩
